import Mathlib

/-
Verification of the minato cache catalog (src/minato/cache.py) against its
natural-language specification.

Shallow embedding conventions:
* SQLite's `cached_files` table is a `List CachedFile`; the `datetime` TEXT
  columns are modelled as epoch seconds (`Int`), matching the only use the
  code makes of them (`strftime` subtraction in `clean`).
* The sqlite connection/cursor pair is one field `connection : Option (List
  CachedFile)`: `some view` is the open transaction's working view (reads on
  the same connection see uncommitted writes), `none` means closed.  Leaving
  a scope commits the view into `committed` (the database file).
* The local filesystem is the list of paths that exist (`files`).
* `uuid.uuid4().hex` is a stream `uuid : Nat -> String` consumed at index
  `uuidIx` (randomness is abstracted as an arbitrary stream).
* Python exceptions do not roll back state, so operations return `PyResult`,
  whose `error` constructor carries the state at the moment of failure.
-/

namespace Minato

/-- Exceptions the cache code can raise: `CacheNotFoundError` and
`ConfigurationError` from minato.exceptions, Python's `RuntimeError`
(raised by `_check_connection`), `sqlite3.IntegrityError` (UNIQUE
constraint), `sqlite3.OperationalError` (SQL syntax error),
`FileNotFoundError` (from `os.remove`), and `AssertionError`. -/
inductive Err : Type where
  | cacheNotFound : String → Err
  | configurationError : String → Err
  | runtimeError : String → Err
  | integrityError : Err
  | operationalError : Err
  | fileNotFoundError : String → Err
  | assertionError : Err
deriving Repr, DecidableEq

/-- One row of the `cached_files` table (the `CachedFile` dataclass). -/
structure CachedFile : Type where
  id : Nat
  url : String
  local_path : String
  created_at : Int
  updated_at : Int
deriving Repr, DecidableEq

/-- State of a `Cache` object together with its environment: the sqlite
database file (`committed`), the open connection's working view
(`connection`), the filesystem (`files`) and the uuid4 stream. -/
structure Cache : Type where
  cache_directory : String
  sqlite_path : String
  expire_days : Option Nat
  connection : Option (List CachedFile)
  committed : List CachedFile
  files : List String
  uuid : Nat → String
  uuidIx : Nat

/-- Result of running one Python operation: either a value or an exception,
in both cases together with the state reached (exceptions do not undo
side effects already performed). -/
inductive PyResult (α : Type) : Type where
  | ok : α → Cache → PyResult α
  | error : Err → Cache → PyResult α

/-- A Python method of `Cache`: a state transformer producing a `PyResult`. -/
abbrev CacheM (α : Type) : Type := Cache → PyResult α

/-- Message of the `RuntimeError` raised by `Cache._check_connection`. -/
def connectionErrorMsg : String := "SQLite connection is not established."

/-- Message of `CacheNotFoundError` in `by_id`/`by_url`.  The source
interpolates the *builtin* `id` function (an f-string slip), so at runtime
the message is the same constant for every lookup. -/
def notFoundMsg : String := "Cache not found with id=<built-in function id>"

/-- `_get_connection`: reuse the open connection (seeing uncommitted
writes) or open a short-lived one on the database file (`committed`). -/
def readView (s : Cache) : List CachedFile :=
  match s.connection with
  | some view => view
  | none => s.committed

/-- Largest rowid in the table (0 when empty); SQLite assigns
`max(rowid) + 1` to the next inserted row of an INTEGER PRIMARY KEY
table without AUTOINCREMENT. -/
def maxId (rows : List CachedFile) : Nat :=
  rows.foldr (fun r acc => Nat.max r.id acc) 0

/-- `by_id`: SELECT * FROM cached_files WHERE id = ?; first row or
`CacheNotFoundError`.  May run outside a scope (`_get_connection`). -/
def by_id (id_ : Nat) (s : Cache) : PyResult CachedFile :=
  match (readView s).filter (fun r => r.id == id_) with
  | [] => .error (.cacheNotFound notFoundMsg) s
  | row :: _ => .ok row s

/-- `by_url`: SELECT * FROM cached_files WHERE url = ?; first row or
`CacheNotFoundError`. -/
def by_url (url : String) (s : Cache) : PyResult CachedFile :=
  match (readView s).filter (fun r => r.url == url) with
  | [] => .error (.cacheNotFound notFoundMsg) s
  | row :: _ => .ok row s

/-- `os.remove(path)`: delete the file or raise `FileNotFoundError` when
the path does not exist. -/
def os_remove (path : String) (s : Cache) : PyResult Unit :=
  if s.files.contains path then
    .ok () { s with files := s.files.filter (fun p => ! (p == path)) }
  else
    .error (.fileNotFoundError path) s

/-- `add(url)`: `_check_connection`; allocate a unique filename
(`uuid4().hex` under the cache directory — `_generate_unique_filename`);
INSERT (url, local_path) with server-side timestamp defaults, which
raises `IntegrityError` on a duplicate url (UNIQUE constraint from
`migrate`); finally fetch the new row via `by_id(lastrowid)`.
`now` is the server's current local time. -/
def add (now : Int) (url : String) (s : Cache) : PyResult CachedFile :=
  match s.connection with
  | none => .error (.runtimeError connectionErrorMsg) s
  | some view =>
    let local_path := s.cache_directory ++ "/" ++ s.uuid s.uuidIx
    let s1 := { s with uuidIx := s.uuidIx + 1 }
    if view.any (fun r => r.url == url) then
      .error .integrityError s1
    else
      let row : CachedFile :=
        { id := maxId view + 1, url := url, local_path := local_path,
          created_at := now, updated_at := now }
      by_id row.id { s1 with connection := some (view ++ [row]) }

/-- The single-quote character, written by code point to keep SQL text
readable in one place. -/
def sqChar : Char := Char.ofNat 39

/-- A single quote as a string. -/
def sq : String := String.singleton sqChar

/-- Characters SQLite treats as parts of a bare identifier or of a
`strftime` format (letters, digits, underscore, percent). -/
def isIdentChar (c : Char) : Bool :=
  c.isAlpha || c.isDigit || c == Char.ofNat 95 || c == Char.ofNat 37

/-- Fuel-driven SQL tokenizer: skips whitespace, groups quoted literals
and identifier characters, and emits every other character as a
one-character token.  The fuel is the input length, which is enough
since every step consumes at least one character. -/
def tokenizeAux : Nat → List Char → List String
  | 0, _ => []
  | _ + 1, [] => []
  | fuel + 1, c :: cs =>
    if c == ' ' || c == Char.ofNat 10 || c == Char.ofNat 9 || c == Char.ofNat 13 then
      tokenizeAux fuel cs
    else if c == sqChar then
      let lit := cs.takeWhile (fun d => ! (d == sqChar))
      let rest := (cs.dropWhile (fun d => ! (d == sqChar))).drop 1
      String.mk (c :: (lit ++ [sqChar])) :: tokenizeAux fuel rest
    else if isIdentChar c then
      String.mk (c :: cs.takeWhile isIdentChar) :: tokenizeAux fuel (cs.dropWhile isIdentChar)
    else
      String.singleton c :: tokenizeAux fuel cs

/-- Tokenize an SQL statement. -/
def tokenize (stmt : String) : List String :=
  tokenizeAux stmt.length stmt.data

/-- The SQL keywords occurring in the statements the source issues
(the recognizer below is restricted to those statement shapes, with
the upper-case spelling the source uses). -/
def isSqlKeyword (t : String) : Bool :=
  t == "UPDATE" || t == "SET" || t == "WHERE"

/-- A bare identifier token. -/
def isIdentTok (t : String) : Bool :=
  t.length != 0 && t.data.all isIdentChar && ! isSqlKeyword t

/-- A quoted string literal token (begins with a single quote). -/
def isLiteralTok (t : String) : Bool :=
  match t.data with
  | c :: _ => c == sqChar
  | [] => false

/-- Parse a value or an argument list of an UPDATE statement, returning
the remaining tokens.  With `argList := false`: one value — a `?`
parameter, a quoted literal, a bare identifier, or a function call
`ident(args)`.  With `argList := true`: a comma-separated list of
values.  One function (structurally recursive on the fuel) rather than
two mutually recursive ones, so that it evaluates by kernel reduction. -/
def parseV : Nat → Bool → List String → Option (List String)
  | 0, _, _ => none
  | _ + 1, false, [] => none
  | fuel + 1, false, t :: rest =>
    if t == "?" then some rest
    else if isLiteralTok t then some rest
    else if isIdentTok t then
      match rest with
      | lp :: rest2 =>
        if lp == "(" then
          match parseV fuel true rest2 with
          | some (rp :: rest3) => if rp == ")" then some rest3 else none
          | _ => none
        else some rest
      | [] => some []
    else none
  | fuel + 1, true, toks =>
    match parseV fuel false toks with
    | some rem =>
      match rem with
      | t :: rest2 => if t == "," then parseV fuel true rest2 else some rem
      | [] => some []
    | none => none

/-- Parse one value (see `parseV`). -/
def parseValue (fuel : Nat) (toks : List String) : Option (List String) :=
  parseV fuel false toks

/-- Parse the comma-separated assignment list after SET: per the SQLite
grammar, after each `column = value` the next token must be `,`
(another assignment) or the start of the next clause. -/
def parseAssigns : Nat → List String → Option (List String)
  | 0, _ => none
  | fuel + 1, name :: eq :: rest =>
    if isIdentTok name && eq == "=" then
      match parseValue (rest.length + 1) rest with
      | some rem =>
        match rem with
        | t :: rest2 => if t == "," then parseAssigns fuel rest2 else some rem
        | [] => some []
      | none => none
    else none
  | _ + 1, _ => none

/-- Parse the `column = value` comparison after WHERE, requiring the
statement to end there. -/
def parseWhereTail : List String → Bool
  | name :: eq :: rest =>
    isIdentTok name && eq == "=" &&
      (match parseValue (rest.length + 1) rest with
       | some [] => true
       | _ => false)
  | _ => false

/-- Whether SQLite's parser accepts the statement as an UPDATE of the
shape the source issues: `UPDATE table SET assignments WHERE column =
value`.  A statement rejected here raises `sqlite3.OperationalError`
at `cursor.execute`, before any change to the database. -/
def sqlite_accepts_update (stmt : String) : Bool :=
  match tokenize stmt with
  | upd :: tbl :: set :: rest =>
    upd == "UPDATE" && set == "SET" && isIdentTok tbl &&
      (match parseAssigns (rest.length + 1) rest with
       | some (w :: rest2) => w == "WHERE" && parseWhereTail rest2
       | _ => false)
  | _ => false

/-- The SQL text of `Cache.update`, whitespace-normalized from the
source's triple-quoted string: the two SET assignments are not
separated by a comma, and WHERE is misspelled WEHRE. -/
def update_sql : String :=
  "UPDATE cached_files SET local_path = ? updated_at = datetime(" ++ sq ++ "now" ++ sq
    ++ ", " ++ sq ++ "localtime" ++ sq ++ ") WEHRE id = ?"

/-- The statement `update` was evidently meant to issue (comma inserted,
WHERE spelled correctly); used only to check the recognizer accepts
well-formed statements of this shape. -/
def intended_update_sql : String :=
  "UPDATE cached_files SET local_path = ?, updated_at = datetime(" ++ sq ++ "now" ++ sq
    ++ ", " ++ sq ++ "localtime" ++ sq ++ ") WHERE id = ?"

/-- `update(item)`: `_check_connection`; then `cursor.execute` on
`update_sql`.  SQLite parses the statement first: a malformed statement
raises `OperationalError` with no state change; were the statement
well-formed, it would set `local_path` and refresh `updated_at` to the
current local time on the row with the item's id. -/
def update (now : Int) (item : CachedFile) (s : Cache) : PyResult Unit :=
  match s.connection with
  | none => .error (.runtimeError connectionErrorMsg) s
  | some view =>
    if sqlite_accepts_update update_sql then
      .ok () { s with connection := some (view.map (fun r =>
        if r.id == item.id then
          { r with local_path := item.local_path, updated_at := now }
        else r)) }
    else
      .error .operationalError s

/-- `delete(item)`: `_check_connection`; DELETE FROM cached_files WHERE
id = ?; then `os.remove(item.local_path)` — the row deletion is issued
before the file removal, so a `FileNotFoundError` from `os.remove`
leaves the row already deleted from the working view. -/
def delete (item : CachedFile) (s : Cache) : PyResult Unit :=
  match s.connection with
  | none => .error (.runtimeError connectionErrorMsg) s
  | some view =>
    os_remove item.local_path
      { s with connection := some (view.filter (fun r => ! (r.id == item.id))) }

/-- The `for item in deleted_files: self.delete(item)` loop inside
`clean`: sequential, aborting at the first exception. -/
def deleteAll : List CachedFile → CacheM Unit
  | [], s => .ok () s
  | it :: rest, s =>
    match delete it s with
    | .ok _ s1 => deleteAll rest s1
    | .error e s1 => .error e s1

/-- The expiry predicate of `clean`'s SELECT:
`strftime(now) - strftime(updated_at) > expire_days * 86400`. -/
def isExpired (now : Int) (expire_days : Nat) (r : CachedFile) : Bool :=
  decide ((expire_days : Int) * 86400 < now - r.updated_at)

/-- `clean()`: `_check_connection`; when an expiry threshold is
configured, SELECT the rows whose elapsed time strictly exceeds
`expire_days * 86400` seconds and delete each in enumeration order;
otherwise do nothing. -/
def clean (now : Int) (s : Cache) : PyResult Unit :=
  match s.connection with
  | none => .error (.runtimeError connectionErrorMsg) s
  | some view =>
    match s.expire_days with
    | none => .ok () s
    | some d => deleteAll (view.filter (isExpired now d)) s

/-- `list()`: SELECT * FROM cached_files via `_get_connection`. -/
def list (s : Cache) : PyResult (List CachedFile) :=
  .ok (readView s) s

/-- Modelled from the spec: `list_expired_caches`, the companion read-only
enumeration of expired entries.  It is called by the remove command
(src/minato/commands/remove.py) but its definition is not under src/;
spec §4.7 says it enumerates expired entries with the same predicate as
the sweep, without deleting, and §4.7 makes the sweep a no-op (here: an
empty enumeration) when no expiry threshold is configured. -/
def list_expired_caches (now : Int) (s : Cache) : PyResult (List CachedFile) :=
  match s.expire_days with
  | none => .ok [] s
  | some d => .ok ((readView s).filter (isExpired now d)) s

/-- `__enter__`: open a connection and cursor on the database file; the
new transaction's working view starts at the committed contents. -/
def enter (s : Cache) : Cache :=
  { s with connection := some s.committed }

/-- `__exit__`: assert the connection and cursor exist, commit the
transaction, close and clear both, and return `True`.  The returned
`True` is what a `with` statement consults to decide whether to
suppress an in-scope exception. -/
def exitScope (s : Cache) : PyResult Bool :=
  match s.connection with
  | none => .error .assertionError s
  | some view =>
    .ok true { s with committed := view, connection := none }

/-- The `tx()` contextmanager: `try: __enter__(); yield; finally:
__exit__()`.  `__exit__` is called as a plain function, so its return
value is ignored: an exception raised by the body propagates to the
caller after the commit in the finally block (an exception raised by
`__exit__` itself would replace it). -/
def tx {α : Type} (body : CacheM α) (s : Cache) : PyResult α :=
  match body (enter s) with
  | .ok a t =>
    match exitScope t with
    | .ok _ u => .ok a u
    | .error e u => .error e u
  | .error e t =>
    match exitScope t with
    | .ok _ u => .error e u
    | .error e2 u => .error e2 u

/-- A `with cache: body` statement (as written in the remove command and
the tests): Python calls `__exit__` with the in-flight exception and
suppresses it when `__exit__` returns a truthy value, in which case the
statement completes normally with no value from the body. -/
def withCache {α : Type} (body : CacheM α) (s : Cache) : PyResult (Option α) :=
  match body (enter s) with
  | .ok a t =>
    match exitScope t with
    | .ok _ u => .ok (some a) u
    | .error e u => .error e u
  | .error e t =>
    match exitScope t with
    | .ok suppress u => if suppress then .ok none u else .error e u
    | .error e2 u => .error e2 u

/-- A caller's loop of `add` calls (as in the repository's tests),
aborting at the first exception. -/
def addAll (now : Int) : List String → CacheM (List CachedFile)
  | [], s => .ok [] s
  | u :: us, s =>
    match add now u s with
    | .ok e s1 =>
      match addAll now us s1 with
      | .ok es s2 => .ok (e :: es) s2
      | .error err s2 => .error err s2
    | .error err s1 => .error err s1

/-- Rows remaining after deleting (by id) every member of `l`. -/
def removeRows (l : List CachedFile) (view : List CachedFile) : List CachedFile :=
  view.filter (fun r => ! l.any (fun it => r.id == it.id))

/-- Files remaining after removing every member of `l`'s backing file. -/
def removeFiles (l : List CachedFile) (fs : List String) : List String :=
  fs.filter (fun p => ! l.any (fun it => p == it.local_path))

/-- The row `add` inserts into working view `view` of cache state `s`. -/
def newRow (now : Int) (url : String) (s : Cache) (view : List CachedFile) : CachedFile :=
  { id := maxId view + 1, url := url,
    local_path := s.cache_directory ++ "/" ++ s.uuid s.uuidIx,
    created_at := now, updated_at := now }

/-- The rows a run of `addAll` inserts, starting at uuid index `ix` and
largest existing rowid `id0`. -/
def mkRows (now : Int) (dir : String) (uuid : Nat → String) :
    Nat → Nat → List String → List CachedFile
  | _, _, [] => []
  | ix, id0, u :: us =>
    { id := id0 + 1, url := u, local_path := dir ++ "/" ++ uuid ix,
      created_at := now, updated_at := now } :: mkRows now dir uuid (ix + 1) (id0 + 1) us

/-- Concrete artifact path used by witnesses. -/
def exPath : String := "/tmp/artifacts/aa"

/-- A concrete catalog row whose backing file may or may not exist. -/
def exRow : CachedFile :=
  { id := 1, url := "https://example.com/a", local_path := exPath,
    created_at := 0, updated_at := 0 }

/-- A recently-updated concrete row. -/
def exRow2 : CachedFile :=
  { id := 2, url := "https://example.com/b", local_path := "/tmp/artifacts/bb",
    created_at := 170000, updated_at := 170000 }

/-- An expired concrete row whose backing file is missing. -/
def exRow3 : CachedFile :=
  { id := 3, url := "https://example.com/c", local_path := "/tmp/artifacts/cc",
    created_at := 0, updated_at := 0 }

/-- An expired concrete row, later in enumeration order than `exRow3`,
whose backing file exists. -/
def exRow4 : CachedFile :=
  { id := 4, url := "https://example.com/d", local_path := "/tmp/artifacts/dd",
    created_at := 0, updated_at := 0 }

/-- A closed cache holding one committed row and no files on disk. -/
def exCache : Cache :=
  { cache_directory := "/tmp/artifacts", sqlite_path := "/tmp/cache.db",
    expire_days := none, connection := none, committed := [exRow],
    files := [], uuid := fun _ => "", uuidIx := 0 }

/-- An open cache with one row in the working view and its file on disk. -/
def exOpen : Cache :=
  { exCache with connection := some [exRow], files := [exPath] }

/-- An open cache configured with a one-day expiry threshold, holding one
expired row (file on disk) and one fresh row. -/
def exExpiry : Cache :=
  { exCache with
    expire_days := some 1,
    connection := some [exRow, exRow2],
    committed := [exRow, exRow2],
    files := [exPath, "/tmp/artifacts/bb"] }

/-- An open cache with expiry configured whose expired rows are `exRow`
(file on disk), `exRow3` (file missing) and `exRow4` (file on disk),
plus the fresh row `exRow2`. -/
def exSweep : Cache :=
  { exCache with
    expire_days := some 1,
    connection := some [exRow, exRow3, exRow4, exRow2],
    committed := [exRow, exRow3, exRow4, exRow2],
    files := [exPath, "/tmp/artifacts/dd"] }

/-- An open cache over an empty catalog whose uuid stream yields pairwise
distinct tokens at indices 0, 1, 2, ... -/
def exEmpty : Cache :=
  { exCache with
    connection := some ([] : List CachedFile),
    committed := [],
    uuid := fun n => String.mk (List.replicate n 'x') }

/-! ### Helper lemmas about the embedding -/

theorem mem_le_maxId {r : CachedFile} {rows : List CachedFile} (h : r ∈ rows) :
    r.id ≤ maxId rows := by
  induction rows with
  | nil => cases h
  | cons x xs ih =>
    rw [List.mem_cons] at h
    rcases h with h1 | h2
    · subst h1; exact Nat.le_max_left _ _
    · exact Nat.le_trans (ih h2) (Nat.le_max_right _ _)

theorem maxId_append_singleton (view : List CachedFile) (r : CachedFile) :
    maxId (view ++ [r]) = Nat.max (maxId view) r.id := by
  induction view with
  | nil => simp [maxId]
  | cons x xs ih =>
    show Nat.max x.id (maxId (xs ++ [r])) = Nat.max (Nat.max x.id (maxId xs)) r.id
    rw [ih]
    exact (Nat.max_assoc _ _ _).symm

theorem filter_byId_append_new (view : List CachedFile) (row : CachedFile)
    (hrow : row.id = maxId view + 1) :
    (view ++ [row]).filter (fun r => r.id == maxId view + 1) = [row] := by
  rw [List.filter_append]
  have h1 : view.filter (fun r => r.id == maxId view + 1) = [] := by
    rw [List.filter_eq_nil_iff]
    intro a ha
    have hle := mem_le_maxId ha
    simp only [beq_iff_eq]
    omega
  rw [h1]
  simp [hrow]

theorem add_ok_eq {now : Int} {url : String} {s : Cache} {view : List CachedFile}
    (hconn : s.connection = some view)
    (hfresh : view.any (fun r => r.url == url) = false) :
    add now url s =
      .ok (newRow now url s view)
        { s with
          uuidIx := s.uuidIx + 1,
          connection := some (view ++ [newRow now url s view]) } := by
  unfold add
  rw [hconn]
  simp only [hfresh, Bool.false_eq_true, if_false]
  unfold by_id readView
  simp only []
  rw [filter_byId_append_new view
    { id := maxId view + 1, url := url,
      local_path := s.cache_directory ++ "/" ++ s.uuid s.uuidIx,
      created_at := now, updated_at := now } rfl]
  rfl

theorem add_dup_eq {now : Int} {url : String} {s : Cache} {view : List CachedFile}
    (hconn : s.connection = some view)
    (hdup : view.any (fun r => r.url == url) = true) :
    add now url s = .error .integrityError { s with uuidIx := s.uuidIx + 1 } := by
  unfold add
  rw [hconn]
  simp [hdup]

theorem delete_ok_eq {item : CachedFile} {s : Cache} {view : List CachedFile}
    (hconn : s.connection = some view)
    (hfile : item.local_path ∈ s.files) :
    delete item s = .ok () { s with
      connection := some (view.filter (fun r => ! (r.id == item.id))),
      files := s.files.filter (fun p => ! (p == item.local_path)) } := by
  unfold delete
  rw [hconn]
  unfold os_remove
  simp [hfile]

theorem delete_err_eq {item : CachedFile} {s : Cache} {view : List CachedFile}
    (hconn : s.connection = some view)
    (hfile : item.local_path ∉ s.files) :
    delete item s = .error (.fileNotFoundError item.local_path)
      { s with connection := some (view.filter (fun r => ! (r.id == item.id))) } := by
  unfold delete
  rw [hconn]
  unfold os_remove
  simp [hfile]

theorem removeRows_nil (view : List CachedFile) : removeRows [] view = view := by
  simp [removeRows]

theorem removeFiles_nil (fs : List String) : removeFiles [] fs = fs := by
  simp [removeFiles]

theorem removeRows_cons (it : CachedFile) (l view : List CachedFile) :
    removeRows (it :: l) view
      = removeRows l (view.filter (fun r => ! (r.id == it.id))) := by
  unfold removeRows
  rw [List.filter_filter]
  apply List.filter_congr
  intro r _
  rw [List.any_cons, Bool.not_or, Bool.and_comm]

theorem removeFiles_cons (it : CachedFile) (l : List CachedFile) (fs : List String) :
    removeFiles (it :: l) fs
      = removeFiles l (fs.filter (fun p => ! (p == it.local_path))) := by
  unfold removeFiles
  rw [List.filter_filter]
  apply List.filter_congr
  intro p _
  rw [List.any_cons, Bool.not_or, Bool.and_comm]

theorem deleteAll_ok : ∀ (l : List CachedFile) (s : Cache) (view : List CachedFile),
    s.connection = some view →
    (∀ it ∈ l, it.local_path ∈ s.files) →
    (l.map (fun it => it.local_path)).Nodup →
    deleteAll l s = .ok () { s with
                             connection := some (removeRows l view),
                             files := removeFiles l s.files }
  | [], s, view, hconn, _, _ => by
    simp only [deleteAll, removeRows_nil, removeFiles_nil]
    rw [← hconn]
  | it :: rest, s, view, hconn, hfiles, hnodup => by
    have hfile : it.local_path ∈ s.files := hfiles it (by simp)
    simp only [List.map_cons, List.nodup_cons] at hnodup
    have hrest := deleteAll_ok rest
      { s with
        connection := some (view.filter (fun r => ! (r.id == it.id))),
        files := s.files.filter (fun p => ! (p == it.local_path)) }
      (view.filter (fun r => ! (r.id == it.id))) rfl
      (by
        intro x hx
        have hxs : x.local_path ∈ s.files := hfiles x (List.mem_cons_of_mem _ hx)
        have hne : ¬ x.local_path = it.local_path := by
          intro heq
          exact hnodup.1 (heq ▸ List.mem_map_of_mem (fun it => it.local_path) hx)
        simp only [List.mem_filter]
        exact ⟨hxs, by simp [hne]⟩)
      hnodup.2
    have hstep : deleteAll (it :: rest) s = deleteAll rest
        { s with
          connection := some (view.filter (fun r => ! (r.id == it.id))),
          files := s.files.filter (fun p => ! (p == it.local_path)) } := by
      simp only [deleteAll]
      rw [delete_ok_eq hconn hfile]
    rw [hstep, hrest, removeRows_cons, removeFiles_cons]

theorem deleteAll_stops : ∀ (l1 : List CachedFile) (bad : CachedFile)
    (l2 : List CachedFile) (s : Cache) (view : List CachedFile),
    s.connection = some view →
    (∀ it ∈ l1, it.local_path ∈ s.files) →
    ((l1.map (fun it => it.local_path)).Nodup) →
    bad.local_path ∉ s.files →
    deleteAll (l1 ++ bad :: l2) s =
      .error (.fileNotFoundError bad.local_path)
        { s with
          connection := some (removeRows (l1 ++ [bad]) view),
          files := removeFiles l1 s.files }
  | [], bad, l2, s, view, hconn, _, _, hbad => by
    have hone : removeRows [bad] view
        = view.filter (fun r => ! (r.id == bad.id)) := by
      unfold removeRows
      apply List.filter_congr
      intro r _
      simp
    simp only [List.nil_append, deleteAll, removeFiles_nil]
    rw [hone, delete_err_eq hconn hbad]
  | it :: rest, bad, l2, s, view, hconn, hfiles, hnodup, hbad => by
    have hfile : it.local_path ∈ s.files := hfiles it (by simp)
    simp only [List.map_cons, List.nodup_cons] at hnodup
    have hrest := deleteAll_stops rest bad l2
      { s with
        connection := some (view.filter (fun r => ! (r.id == it.id))),
        files := s.files.filter (fun p => ! (p == it.local_path)) }
      (view.filter (fun r => ! (r.id == it.id))) rfl
      (by
        intro x hx
        have hxs : x.local_path ∈ s.files := hfiles x (List.mem_cons_of_mem _ hx)
        have hne : ¬ x.local_path = it.local_path := by
          intro heq
          exact hnodup.1 (heq ▸ List.mem_map_of_mem (fun it => it.local_path) hx)
        simp only [List.mem_filter]
        exact ⟨hxs, by simp [hne]⟩)
      hnodup.2
      (by
        intro hmem
        exact hbad (List.mem_of_mem_filter hmem))
    have hstep : deleteAll ((it :: rest) ++ bad :: l2) s = deleteAll (rest ++ bad :: l2)
        { s with
          connection := some (view.filter (fun r => ! (r.id == it.id))),
          files := s.files.filter (fun p => ! (p == it.local_path)) } := by
      simp only [List.cons_append, deleteAll]
      rw [delete_ok_eq hconn hfile]
      rfl
    rw [hstep, hrest, show (it :: rest) ++ [bad] = it :: (rest ++ [bad]) from rfl,
      removeRows_cons, removeFiles_cons]

theorem removeRows_filter_self (p : CachedFile → Bool) (view : List CachedFile)
    (hids : (view.map (fun r => r.id)).Nodup) :
    removeRows (view.filter p) view = view.filter (fun r => ! p r) := by
  unfold removeRows
  apply List.filter_congr
  intro r hr
  congr 1
  cases hp : p r with
  | true =>
    apply List.any_eq_true.mpr
    exact ⟨r, List.mem_filter.mpr ⟨hr, hp⟩, beq_self_eq_true _⟩
  | false =>
    rw [List.any_eq_false]
    intro it hit hbeq
    rcases List.mem_filter.mp hit with ⟨hitv, hpit⟩
    have heq : r = it := List.inj_on_of_nodup_map hids hr hitv (beq_iff_eq.mp hbeq)
    rw [← heq, hp] at hpit
    cases hpit

theorem filter_byUrl_append_new (url : String) (view : List CachedFile)
    (row : CachedFile) (hrow : row.url = url)
    (hfresh : view.any (fun r => r.url == url) = false) :
    (view ++ [row]).filter (fun r => r.url == url) = [row] := by
  rw [List.filter_append]
  have h1 : view.filter (fun r => r.url == url) = [] := by
    rw [List.filter_eq_nil_iff]
    exact List.any_eq_false.mp hfresh
  rw [h1]
  simp [hrow]

theorem filter_byId_of_removed (view : List CachedFile) (i : Nat) :
    (view.filter (fun r => ! (r.id == i))).filter (fun r => r.id == i) = [] := by
  rw [List.filter_filter]
  have h : ∀ r ∈ view, ((r.id == i) && ! (r.id == i)) = (fun _ => false) r := by
    intro r _
    exact Bool.and_not_self _
  rw [List.filter_congr h, List.filter_false]

theorem append_left_injective (a : String) :
    Function.Injective (fun t : String => a ++ t) := by
  intro x y h
  simp only [] at h
  apply String.ext
  have h2 := congrArg String.data h
  rw [String.data_append, String.data_append] at h2
  exact List.append_cancel_left h2

theorem mkRows_length (now : Int) (dir : String) (uuid : Nat → String) :
    ∀ (urls : List String) (ix id0 : Nat),
    (mkRows now dir uuid ix id0 urls).length = urls.length
  | [], _, _ => rfl
  | _ :: us, ix, id0 => by
    simp only [mkRows, List.length_cons,
      mkRows_length now dir uuid us (ix + 1) (id0 + 1)]

theorem mkRows_id_gt (now : Int) (dir : String) (uuid : Nat → String) :
    ∀ (urls : List String) (ix id0 : Nat) (r : CachedFile),
    r ∈ mkRows now dir uuid ix id0 urls → id0 < r.id
  | [], _, _, r, h => absurd h (List.not_mem_nil r)
  | _ :: us, ix, id0, r, h => by
    simp only [mkRows, List.mem_cons] at h
    rcases h with h1 | h2
    · subst h1; exact Nat.lt_succ_self id0
    · have := mkRows_id_gt now dir uuid us (ix + 1) (id0 + 1) r h2
      omega

theorem mkRows_ids_nodup (now : Int) (dir : String) (uuid : Nat → String) :
    ∀ (urls : List String) (ix id0 : Nat),
    ((mkRows now dir uuid ix id0 urls).map (fun r => r.id)).Nodup
  | [], _, _ => List.nodup_nil
  | _ :: us, ix, id0 => by
    simp only [mkRows, List.map_cons, List.nodup_cons]
    constructor
    · intro hmem
      rcases List.mem_map.mp hmem with ⟨r, hr, hid⟩
      have hgt := mkRows_id_gt now dir uuid us (ix + 1) (id0 + 1) r hr
      have hid2 : r.id = id0 + 1 := hid
      omega
    · exact mkRows_ids_nodup now dir uuid us (ix + 1) (id0 + 1)

theorem mkRows_paths (now : Int) (dir : String) (uuid : Nat → String) :
    ∀ (urls : List String) (ix id0 : Nat),
    (mkRows now dir uuid ix id0 urls).map (fun r => r.local_path)
      = (List.range urls.length).map (fun i => dir ++ "/" ++ uuid (ix + i))
  | [], _, _ => rfl
  | _ :: us, ix, id0 => by
    simp only [mkRows, List.map_cons, List.length_cons, List.range_succ_eq_map,
      List.map_map, Nat.add_zero]
    rw [mkRows_paths now dir uuid us (ix + 1) (id0 + 1)]
    congr 1
    apply List.map_congr_left
    intro i _
    show dir ++ "/" ++ uuid (ix + 1 + i) = dir ++ "/" ++ uuid (ix + (i + 1))
    exact congrArg (fun n => dir ++ "/" ++ uuid n) (by omega)

theorem mkRows_path_shape (now : Int) (dir : String) (uuid : Nat → String) :
    ∀ (urls : List String) (ix id0 : Nat) (r : CachedFile),
    r ∈ mkRows now dir uuid ix id0 urls → ∃ name, r.local_path = dir ++ "/" ++ name
  | [], _, _, r, h => absurd h (List.not_mem_nil r)
  | _ :: us, ix, id0, r, h => by
    simp only [mkRows, List.mem_cons] at h
    rcases h with h1 | h2
    · exact ⟨uuid ix, by rw [h1]⟩
    · exact mkRows_path_shape now dir uuid us (ix + 1) (id0 + 1) r h2

theorem addAll_cons_ok {now : Int} {u : String} {us : List String} {s : Cache}
    {e : CachedFile} {s1 : Cache} (h : add now u s = .ok e s1) :
    addAll now (u :: us) s =
      (match addAll now us s1 with
       | .ok es s2 => .ok (e :: es) s2
       | .error err s2 => .error err s2) := by
  simp only [addAll]
  rw [h]

theorem addAll_ok : ∀ (now : Int) (urls : List String) (s : Cache) (view : List CachedFile),
    s.connection = some view →
    urls.Nodup →
    (∀ u ∈ urls, view.any (fun r => r.url == u) = false) →
    addAll now urls s =
      .ok (mkRows now s.cache_directory s.uuid s.uuidIx (maxId view) urls)
        { s with
          connection := some (view ++ mkRows now s.cache_directory s.uuid s.uuidIx (maxId view) urls),
          uuidIx := s.uuidIx + urls.length }
  | now, [], s, view, hconn, _, _ => by
    simp only [addAll, mkRows, List.append_nil, List.length_nil, Nat.add_zero]
    rw [← hconn]
  | now, u :: us, s, view, hconn, hnodup, hfresh => by
    have hfr : view.any (fun r => r.url == u) = false := hfresh u (by simp)
    rw [List.nodup_cons] at hnodup
    have hadd := @add_ok_eq now u s view hconn hfr
    have hmax : maxId (view ++ [newRow now u s view]) = maxId view + 1 := by
      rw [maxId_append_singleton]
      exact Nat.max_eq_right (Nat.le_succ _)
    have hfr2 : ∀ u2 ∈ us,
        (view ++ [newRow now u s view]).any (fun r => r.url == u2) = false := by
      intro u2 hu2
      rw [List.any_append, hfresh u2 (List.mem_cons_of_mem _ hu2)]
      simp only [List.any_cons, List.any_nil, Bool.or_false, Bool.false_or]
      rw [beq_eq_false_iff_ne]
      intro heq
      have heq2 : u = u2 := heq
      exact hnodup.1 (by rw [heq2]; exact hu2)
    have hrest := addAll_ok now us
      { s with
        uuidIx := s.uuidIx + 1,
        connection := some (view ++ [newRow now u s view]) }
      (view ++ [newRow now u s view]) rfl hnodup.2 hfr2
    rw [hmax] at hrest
    rw [addAll_cons_ok hadd, hrest]
    have harith : s.uuidIx + 1 + us.length = s.uuidIx + (us.length + 1) := by omega
    simp only [mkRows, newRow, List.append_assoc, List.singleton_append,
      List.length_cons, harith]

/-- The source's UPDATE statement does not parse: after the assignment
`local_path = ?` the next token is `updated_at` rather than a comma or
WHERE (and WHERE itself is misspelled WEHRE). -/
theorem update_sql_rejected : sqlite_accepts_update update_sql = false := by decide

/-- Sanity check of the recognizer: the comma-and-WHERE correction of the
same statement is accepted. -/
theorem intended_update_sql_accepted :
    sqlite_accepts_update intended_update_sql = true := by decide

/-! ### Claim theorems -/

/-- C1, counterexample: the claim that every failure inside an open scope
reaches the caller is false for a scope driven by the Cache's own
with-protocol (as the remove command and the tests use it): here
`delete` raises `FileNotFoundError` inside the scope, yet the `with`
statement completes normally, because `__exit__` returns `True` and
Python therefore suppresses the in-flight exception. -/
theorem C1_counterexample_scope_swallows_error :
    delete exRow (enter exCache) =
      .error (.fileNotFoundError exPath)
        { exCache with connection := some ([] : List CachedFile) } ∧
    withCache (delete exRow) exCache =
      .ok none { exCache with connection := none, committed := ([] : List CachedFile) } :=
  ⟨rfl, rfl⟩

/-- C1, amended: every operation propagates its failure as a typed
condition, and an error raised inside a scope entered via the `tx`
contextmanager still reaches the caller after the scope commits and
exits; but when the scope is entered via the Cache's with-protocol
directly, `__exit__` returns `True`, so the error is suppressed at
scope exit (after the commit) and does not reach the caller. -/
theorem C1_amended_tx_propagates_with_protocol_swallows {α : Type} (body : CacheM α)
    (s t : Cache) (e : Err) (v : List CachedFile)
    (hfail : body (enter s) = .error e t) (hconn : t.connection = some v) :
    tx body s = .error e { t with committed := v, connection := none } ∧
    withCache body s = .ok none { t with committed := v, connection := none } := by
  have hexit : exitScope t = .ok true { t with committed := v, connection := none } := by
    unfold exitScope
    rw [hconn]
  constructor
  · unfold tx
    rw [hfail]
    show (match exitScope t with
          | .ok _ u => PyResult.error e u
          | .error e2 u => PyResult.error e2 u) = _
    rw [hexit]
  · unfold withCache
    rw [hfail]
    show (match exitScope t with
          | .ok suppress u => if suppress then PyResult.ok none u else PyResult.error e u
          | .error e2 u => PyResult.error e2 u) = _
    rw [hexit]
    rfl

/-- C1, witness: the amended theorem at a concrete failing delete. -/
theorem C1_amended_witness :
    tx (delete exRow) exCache =
      .error (.fileNotFoundError exPath)
        { exCache with committed := ([] : List CachedFile), connection := none } ∧
    withCache (delete exRow) exCache =
      .ok none { exCache with committed := ([] : List CachedFile), connection := none } :=
  C1_amended_tx_propagates_with_protocol_swallows (delete exRow) exCache
    { exCache with connection := some ([] : List CachedFile) }
    (.fileNotFoundError exPath) [] rfl rfl

/-- C3 (code bug): `update`, called in an open scope on any item, never
updates anything — its SQL statement lacks the comma between the two
SET assignments and misspells WHERE as WEHRE, so SQLite rejects it and
`cursor.execute` raises `sqlite3.OperationalError`, leaving the state
unchanged; the claim's intended contract (set `local_path`, refresh
`updated_at`) is never reached. -/
theorem C3_update_always_raises_operational_error (now : Int) (item : CachedFile)
    (v : List CachedFile) (s : Cache) :
    update now item { s with connection := some v } =
      .error .operationalError { s with connection := some v } := by
  unfold update
  rw [update_sql_rejected]
  rfl

/-- C4: leaving a scope commits the transaction and releases the
connection and cursor unconditionally: `__exit__` on an open scope
commits the working view and clears the connection, and a `tx` scope
commits the body's final working view whether the body returned or
raised — statements that succeeded before a failure are durably
persisted (no rollback-on-error), and after exit no scope is open. -/
theorem C4_scope_exit_commits_unconditionally {α : Type} (body : CacheM α)
    (s t : Cache) (v : List CachedFile) (a : α) (e : Err) :
    (exitScope { s with connection := some v } =
      .ok true { s with connection := none, committed := v }) ∧
    (body (enter s) = .ok a t → t.connection = some v →
      tx body s = .ok a { t with committed := v, connection := none }) ∧
    (body (enter s) = .error e t → t.connection = some v →
      tx body s = .error e { t with committed := v, connection := none }) := by
  refine ⟨rfl, ?_, ?_⟩
  · intro hb hc
    have hexit : exitScope t = .ok true { t with committed := v, connection := none } := by
      unfold exitScope
      rw [hc]
    unfold tx
    rw [hb]
    show (match exitScope t with
          | .ok _ u => PyResult.ok a u
          | .error e2 u => PyResult.error e2 u) = _
    rw [hexit]
  · intro hb hc
    have hexit : exitScope t = .ok true { t with committed := v, connection := none } := by
      unfold exitScope
      rw [hc]
    unfold tx
    rw [hb]
    show (match exitScope t with
          | .ok _ u => PyResult.error e u
          | .error e2 u => PyResult.error e2 u) = _
    rw [hexit]

/-- C4, witness: a returning body and a raising body, both committed. -/
theorem C4_witness :
    tx (fun st => PyResult.ok 7 st) exCache = .ok 7 { exCache with connection := none } ∧
    tx (delete exRow) exCache =
      .error (.fileNotFoundError exPath)
        { exCache with committed := ([] : List CachedFile), connection := none } := by
  constructor
  · exact (C4_scope_exit_commits_unconditionally (fun st => PyResult.ok 7 st) exCache
      (enter exCache) [exRow] 7 Err.assertionError).2.1 rfl rfl
  · exact (C4_scope_exit_commits_unconditionally (delete exRow) exCache
      { exCache with connection := some ([] : List CachedFile) } [] ()
      (Err.fileNotFoundError exPath)).2.2 rfl rfl

/-- C5: every mutating operation — `add`, `update`, `delete`, and `clean`
(also when no expiry threshold is configured) — invoked while no scope
is open raises the internal-usage `RuntimeError` (distinct from the
domain errors) and leaves the state unchanged; it is never a silent
no-op. -/
theorem C5_mutations_require_open_scope (now : Int) (url : String) (item : CachedFile)
    (s : Cache) (hconn : s.connection = none) :
    add now url s = .error (.runtimeError connectionErrorMsg) s ∧
    update now item s = .error (.runtimeError connectionErrorMsg) s ∧
    delete item s = .error (.runtimeError connectionErrorMsg) s ∧
    clean now s = .error (.runtimeError connectionErrorMsg) s ∧
    clean now { s with expire_days := none } =
      .error (.runtimeError connectionErrorMsg) { s with expire_days := none } := by
  refine ⟨?_, ?_, ?_, ?_, ?_⟩
  · unfold add
    rw [hconn]
  · unfold update
    rw [hconn]
  · unfold delete
    rw [hconn]
  · unfold clean
    rw [hconn]
  · unfold clean
    rw [show ({ s with expire_days := none } : Cache).connection = none from hconn]

/-- C5, witness: the theorem at a concrete closed cache. -/
theorem C5_witness :
    exCache.connection = none ∧
    add 0 "https://example.com/x" exCache =
      .error (.runtimeError connectionErrorMsg) exCache :=
  ⟨rfl, (C5_mutations_require_open_scope 0 "https://example.com/x" exRow exCache rfl).1⟩

theorem by_id_eq {i : Nat} {s : Cache} {view : List CachedFile}
    (hconn : s.connection = some view) :
    by_id i s =
      (match view.filter (fun r => r.id == i) with
       | [] => .error (.cacheNotFound notFoundMsg) s
       | row :: _ => .ok row s) := by
  unfold by_id readView
  rw [hconn]

theorem by_url_eq {url : String} {s : Cache} {view : List CachedFile}
    (hconn : s.connection = some view) :
    by_url url s =
      (match view.filter (fun r => r.url == url) with
       | [] => .error (.cacheNotFound notFoundMsg) s
       | row :: _ => .ok row s) := by
  unfold by_url readView
  rw [hconn]

/-- C6: if an entry with url `u` already exists in the open working view,
`add u` fails with the UNIQUE-constraint violation (`IntegrityError`)
and leaves the stored rows untouched (only the uuid stream advanced);
in particular a successful `add u` followed by `add u` again fails on
the second call. -/
theorem C6_duplicate_url_add_fails (now now2 : Int) (url : String)
    (s : Cache) (view : List CachedFile)
    (hconn : s.connection = some view) :
    ((view.any (fun r => r.url == url) = true) →
      add now url s = .error .integrityError { s with uuidIx := s.uuidIx + 1 }) ∧
    (∀ e s1, add now url s = .ok e s1 →
      s1.connection = some (view ++ [newRow now url s view]) ∧
      add now2 url s1 = .error .integrityError { s1 with uuidIx := s1.uuidIx + 1 }) := by
  constructor
  · intro hdup
    exact add_dup_eq hconn hdup
  · intro e s1 hok
    by_cases hdup : view.any (fun r => r.url == url) = true
    · rw [add_dup_eq hconn hdup] at hok
      simp at hok
    · have hfr : view.any (fun r => r.url == url) = false := by
        cases h : view.any (fun r => r.url == url)
        · rfl
        · exact absurd h hdup
      rw [add_ok_eq hconn hfr] at hok
      injection hok with he hs
      subst hs
      refine ⟨rfl, ?_⟩
      apply add_dup_eq rfl
      rw [List.any_append]
      simp [newRow]

/-- C6, witness: adding the already-present url of `exOpen` fails with
the constraint violation and keeps the row view unchanged. -/
theorem C6_witness :
    add 0 "https://example.com/a" exOpen =
      .error .integrityError { exOpen with uuidIx := 1 } :=
  (C6_duplicate_url_add_fails 0 0 "https://example.com/a" exOpen [exRow] rfl).1
    (by decide)

/-- C7: for a url not yet present, `add u` in an open scope returns the
freshly inserted row (fetched by its store-assigned id), and both
`by_id` on its id and `by_url` on `u` return that same entry. -/
theorem C7_add_then_lookup_roundtrip (now : Int) (url : String)
    (s : Cache) (view : List CachedFile)
    (hconn : s.connection = some view)
    (hfresh : view.any (fun r => r.url == url) = false) :
    ∃ e s1, add now url s = .ok e s1 ∧ e.url = url ∧
      by_id e.id s1 = .ok e s1 ∧ by_url url s1 = .ok e s1 := by
  refine ⟨newRow now url s view, _, add_ok_eq hconn hfresh, rfl, ?_, ?_⟩
  · rw [by_id_eq rfl]
    rw [show (newRow now url s view).id = maxId view + 1 from rfl]
    rw [filter_byId_append_new view (newRow now url s view) rfl]
  · rw [by_url_eq rfl]
    rw [filter_byUrl_append_new url view (newRow now url s view) rfl hfresh]

/-- C7, witness: the round trip at a concrete fresh url. -/
theorem C7_witness :
    ∃ e s1, add 0 "https://example.com/x" exOpen = .ok e s1 ∧
      e.url = "https://example.com/x" ∧
      by_id e.id s1 = .ok e s1 ∧ by_url "https://example.com/x" s1 = .ok e s1 :=
  C7_add_then_lookup_roundtrip 0 "https://example.com/x" exOpen [exRow] rfl (by decide)

/-- C8: `delete e` in an open scope removes the row with e's id and then
removes the backing file, after which `by_id e.id` fails with the
not-found error and the file no longer exists; when the backing file is
already absent, `FileNotFoundError` propagates with the row removal
already issued on the working view. -/
theorem C8_delete_removes_row_then_file (item : CachedFile) (s : Cache)
    (view : List CachedFile) (hconn : s.connection = some view) :
    (item.local_path ∈ s.files →
      ∃ s1, delete item s = .ok () s1 ∧
        s1.connection = some (view.filter (fun r => ! (r.id == item.id))) ∧
        item.local_path ∉ s1.files ∧
        by_id item.id s1 = .error (.cacheNotFound notFoundMsg) s1) ∧
    (item.local_path ∉ s.files →
      delete item s = .error (.fileNotFoundError item.local_path)
        { s with connection := some (view.filter (fun r => ! (r.id == item.id))) }) := by
  constructor
  · intro hfile
    refine ⟨_, delete_ok_eq hconn hfile, rfl, ?_, ?_⟩
    · simp [List.mem_filter]
    · rw [by_id_eq rfl, filter_byId_of_removed]
  · intro hfile
    exact delete_err_eq hconn hfile

/-- C8, witness: deleting the only entry of `exOpen` (file present), and
deleting it in a state whose filesystem is empty (file absent). -/
theorem C8_witness :
    (∃ s1, delete exRow exOpen = .ok () s1 ∧
      s1.connection = some (([exRow] : List CachedFile).filter (fun r => ! (r.id == exRow.id))) ∧
      exRow.local_path ∉ s1.files ∧
      by_id exRow.id s1 = .error (.cacheNotFound notFoundMsg) s1) ∧
    delete exRow { exCache with connection := some [exRow] } =
      .error (.fileNotFoundError exRow.local_path)
        { exCache with connection := some (([exRow] : List CachedFile).filter (fun r => ! (r.id == exRow.id))) } := by
  constructor
  · exact (C8_delete_removes_row_then_file exRow exOpen [exRow] rfl).1 (by decide)
  · exact (C8_delete_removes_row_then_file exRow
      { exCache with connection := some [exRow] } [exRow] rfl).2 (by decide)

/-- C2: with an expiry threshold of `d` days configured, `clean` (in an
open scope) deletes exactly the entries whose elapsed time since
`updated_at` strictly exceeds `d * 86400` seconds — each via the delete
path, removing the row and the backing file — and the companion
expired-enumeration selects the same set; with no expiry threshold
configured, `clean` deletes nothing.  (The code's predicate is the
strict `exceeds` of the claim's main statement, not the `elapsed ≥
threshold` variant the spec also mentions.) -/
theorem C2_clean_deletes_exactly_expired (now : Int) (d : Nat) (s : Cache)
    (view : List CachedFile)
    (hconn : s.connection = some view)
    (hids : (view.map (fun r => r.id)).Nodup)
    (hpaths : ((view.filter (isExpired now d)).map (fun r => r.local_path)).Nodup)
    (hfiles : ∀ it ∈ view.filter (isExpired now d), it.local_path ∈ s.files) :
    (s.expire_days = some d →
      clean now s = .ok ()
        { s with
          connection := some (view.filter (fun r => ! isExpired now d r)),
          files := removeFiles (view.filter (isExpired now d)) s.files } ∧
      (∀ it ∈ view.filter (isExpired now d),
        it.local_path ∉ removeFiles (view.filter (isExpired now d)) s.files) ∧
      list_expired_caches now s = .ok (view.filter (isExpired now d)) s) ∧
    (s.expire_days = none → clean now s = .ok () s) := by
  constructor
  · intro hexp
    refine ⟨?_, ?_, ?_⟩
    · have hda := deleteAll_ok (view.filter (isExpired now d)) s view hconn hfiles hpaths
      rw [removeRows_filter_self (isExpired now d) view hids, hexp] at hda
      unfold clean
      rw [hconn, hexp]
      show deleteAll (view.filter (isExpired now d)) s = _
      exact hda
    · intro it hit h
      rcases List.mem_filter.mp h with ⟨_, hpred⟩
      have hany : (view.filter (isExpired now d)).any
          (fun x => it.local_path == x.local_path) = true :=
        List.any_eq_true.mpr ⟨it, hit, beq_self_eq_true _⟩
      rw [hany] at hpred
      simp at hpred
    · unfold list_expired_caches readView
      rw [hexp, hconn]
  · intro hexp
    unfold clean
    rw [hconn, hexp]

/-- C2, witness: with a 1-day threshold, cleaning at time 200000 deletes
the entry updated at time 0 (row and file) and keeps the entry updated
at time 170000; the expired-enumeration selects the deleted entry; with
the threshold removed, clean is a no-op. -/
theorem C2_witness :
    (clean 200000 exExpiry = .ok ()
      { exExpiry with
        connection := some (([exRow, exRow2] : List CachedFile).filter (fun r => ! isExpired 200000 1 r)),
        files := removeFiles (([exRow, exRow2] : List CachedFile).filter (isExpired 200000 1)) exExpiry.files } ∧
    (∀ it ∈ ([exRow, exRow2] : List CachedFile).filter (isExpired 200000 1),
      it.local_path ∉ removeFiles (([exRow, exRow2] : List CachedFile).filter (isExpired 200000 1)) exExpiry.files) ∧
    list_expired_caches 200000 exExpiry =
      .ok (([exRow, exRow2] : List CachedFile).filter (isExpired 200000 1)) exExpiry) ∧
    clean 200000 { exExpiry with expire_days := none } =
      .ok () { exExpiry with expire_days := none } :=
  ⟨(C2_clean_deletes_exactly_expired 200000 1 exExpiry [exRow, exRow2] rfl
      (by decide) (by decide) (by decide)).1 rfl,
   (C2_clean_deletes_exactly_expired 200000 1 { exExpiry with expire_days := none }
      [exRow, exRow2] rfl (by decide) (by decide) (by decide)).2 rfl⟩

/-- C9: starting from an empty catalog in an open scope, adding pairwise
distinct urls succeeds for each, and `list` then returns exactly one
entry per url, with pairwise distinct ids and pairwise distinct local
paths, each path an opaque token inside the artifact directory (the
uuid stream standing in for uuid4 is assumed collision-free on the
consumed window, which is the negligible-collision property of
uuid4). -/
theorem C9_add_distinct_urls (now : Int) (urls : List String) (s : Cache)
    (hconn : s.connection = some ([] : List CachedFile))
    (hnodup : urls.Nodup)
    (huuid : ((List.range urls.length).map (fun i => s.uuid (s.uuidIx + i))).Nodup) :
    ∃ rows s2, addAll now urls s = .ok rows s2 ∧
      list s2 = .ok rows s2 ∧
      rows.length = urls.length ∧
      (rows.map (fun r => r.id)).Nodup ∧
      (rows.map (fun r => r.local_path)).Nodup ∧
      (∀ r ∈ rows, ∃ name, r.local_path = s.cache_directory ++ "/" ++ name) := by
  have hfresh : ∀ u ∈ urls, (([] : List CachedFile).any (fun r => r.url == u)) = false := by
    intro u _
    rfl
  have haa := addAll_ok now urls s [] hconn hnodup hfresh
  refine ⟨mkRows now s.cache_directory s.uuid s.uuidIx (maxId []) urls, _, haa,
    rfl, mkRows_length now s.cache_directory s.uuid urls s.uuidIx (maxId []),
    mkRows_ids_nodup now s.cache_directory s.uuid urls s.uuidIx (maxId []), ?_, ?_⟩
  · rw [mkRows_paths now s.cache_directory s.uuid urls s.uuidIx (maxId [])]
    have hcomp : (List.range urls.length).map
        (fun i => s.cache_directory ++ "/" ++ s.uuid (s.uuidIx + i))
        = ((List.range urls.length).map (fun i => s.uuid (s.uuidIx + i))).map
            (fun t => s.cache_directory ++ "/" ++ t) := by
      rw [List.map_map]
      rfl
    rw [hcomp]
    exact List.Nodup.map (append_left_injective (s.cache_directory ++ "/")) huuid
  · intro r hr
    exact mkRows_path_shape now s.cache_directory s.uuid urls s.uuidIx (maxId []) r hr

/-- C9, witness: two distinct urls added to an empty catalog whose uuid
stream yields distinct tokens. -/
theorem C9_witness :
    ∃ rows s2, addAll 0 ["https://a", "https://b"] exEmpty = .ok rows s2 ∧
      list s2 = .ok rows s2 ∧
      rows.length = (["https://a", "https://b"] : List String).length ∧
      (rows.map (fun r => r.id)).Nodup ∧
      (rows.map (fun r => r.local_path)).Nodup ∧
      (∀ r ∈ rows, ∃ name, r.local_path = exEmpty.cache_directory ++ "/" ++ name) :=
  C9_add_distinct_urls 0 ["https://a", "https://b"] exEmpty rfl (by decide) (by decide)

/-- C10: with an expiry threshold configured, the sweep deletes the
expired entries one at a time in enumeration order; when deleting one
of them fails because its backing file is missing, the sweep raises at
that entry and deletes nothing later in the enumeration, while the
deletions already performed (rows and files, plus the failed entry's
row, issued before its file removal) remain in effect and are committed
by the scope's exit. -/
theorem C10_sweep_stops_at_first_failure (now : Int) (d : Nat) (s : Cache)
    (view l1 l2 : List CachedFile) (bad : CachedFile)
    (hconn : s.connection = some view)
    (hexp : s.expire_days = some d)
    (hids : (view.map (fun r => r.id)).Nodup)
    (hsplit : view.filter (isExpired now d) = l1 ++ bad :: l2)
    (hfiles : ∀ it ∈ l1, it.local_path ∈ s.files)
    (hnodup : (l1.map (fun it => it.local_path)).Nodup)
    (hbad : bad.local_path ∉ s.files)
    (hl2 : ∀ it ∈ l2, it.local_path ∈ s.files ∧
      it.local_path ∉ l1.map (fun x => x.local_path)) :
    ∃ s2, clean now s = .error (.fileNotFoundError bad.local_path) s2 ∧
      s2.connection = some (removeRows (l1 ++ [bad]) view) ∧
      s2.files = removeFiles l1 s.files ∧
      (∀ it ∈ l2, it ∈ removeRows (l1 ++ [bad]) view ∧ it.local_path ∈ s2.files) ∧
      exitScope s2 = .ok true
        { s2 with committed := removeRows (l1 ++ [bad]) view, connection := none } := by
  have hda := deleteAll_stops l1 bad l2 s view hconn hfiles hnodup hbad
  have hfid : ((l1 ++ bad :: l2).map (fun r => r.id)).Nodup := by
    have hsub : ((view.filter (isExpired now d)).map (fun r => r.id)).Sublist
        (view.map (fun r => r.id)) :=
      List.Sublist.map _ (List.filter_sublist view)
    have hn := List.Nodup.sublist hsub hids
    rwa [hsplit] at hn
  rw [List.map_append, List.map_cons] at hfid
  rcases List.nodup_append.mp hfid with ⟨_, h2, hdisj⟩
  rw [List.nodup_cons] at h2
  refine ⟨{ s with
      connection := some (removeRows (l1 ++ [bad]) view),
      files := removeFiles l1 s.files }, ?_, rfl, rfl, ?_, rfl⟩
  · unfold clean
    rw [hexp] at hda
    rw [hconn, hexp]
    show deleteAll (view.filter (isExpired now d)) s = _
    rw [hsplit]
    exact hda
  · intro it hit
    have hmem2 : it ∈ view.filter (isExpired now d) := by
      rw [hsplit]
      exact List.mem_append.mpr (Or.inr (List.mem_cons_of_mem _ hit))
    rcases List.mem_filter.mp hmem2 with ⟨hview, _⟩
    have hany : ((l1 ++ [bad]).any (fun x => it.id == x.id)) = false := by
      rw [List.any_eq_false]
      intro x hx hbeq
      have heq : it.id = x.id := beq_iff_eq.mp hbeq
      rcases List.mem_append.mp hx with hx1 | hx2
      · apply hdisj (List.mem_map_of_mem (fun r => r.id) hx1)
        apply List.mem_cons_of_mem
        rw [← heq]
        exact List.mem_map_of_mem (fun r => r.id) hit
      · rw [List.mem_singleton] at hx2
        subst hx2
        apply h2.1
        rw [← heq]
        exact List.mem_map_of_mem (fun r => r.id) hit
    constructor
    · refine List.mem_filter.mpr ⟨hview, ?_⟩
      show (! ((l1 ++ [bad]).any (fun x => it.id == x.id))) = true
      rw [hany]
      rfl
    · rcases hl2 it hit with ⟨hfmem, hfnot⟩
      refine List.mem_filter.mpr ⟨hfmem, ?_⟩
      have hany2 : (l1.any (fun x => it.local_path == x.local_path)) = false := by
        rw [List.any_eq_false]
        intro x hx hbeq
        apply hfnot
        rw [beq_iff_eq.mp hbeq]
        exact List.mem_map_of_mem (fun r => r.local_path) hx
      show (! (l1.any (fun x => it.local_path == x.local_path))) = true
      rw [hany2]
      rfl

/-- C10, witness: sweeping `exSweep` at time 200000 with a 1-day
threshold deletes the first expired entry, fails on the second (file
missing) with its row already removed, and leaves the third expired
entry and its file untouched. -/
theorem C10_witness :
    ∃ s2, clean 200000 exSweep = .error (.fileNotFoundError exRow3.local_path) s2 ∧
      s2.connection = some (removeRows ([exRow] ++ [exRow3]) [exRow, exRow3, exRow4, exRow2]) ∧
      s2.files = removeFiles [exRow] exSweep.files ∧
      (∀ it ∈ ([exRow4] : List CachedFile),
        it ∈ removeRows ([exRow] ++ [exRow3]) [exRow, exRow3, exRow4, exRow2] ∧
        it.local_path ∈ s2.files) ∧
      exitScope s2 = .ok true
        { s2 with
          committed := removeRows ([exRow] ++ [exRow3]) [exRow, exRow3, exRow4, exRow2],
          connection := none } :=
  C10_sweep_stops_at_first_failure 200000 1 exSweep [exRow, exRow3, exRow4, exRow2]
    [exRow] [exRow4] exRow3 rfl rfl (by decide) (by decide) (by decide) (by decide)
    (by decide) (by decide)

end Minato
